import Mathlib

/-!
# Verification development for `script.js` (portfolio page animator)

A shallow embedding of the page script: the contact-form validator and its
regular expression, the toast utility and its timers, the testimonial slider,
the nav-glass controller, the horizontal project scroller and the
`DOMContentLoaded` handler as a whole.

JavaScript strings are sequences of UTF-16 code units; they are modelled as
lists of natural numbers. The numbers that the script computes with are
integers (`offsetWidth`, `scrollWidth`, `clientWidth`, `innerWidth`, slide
indices, timer delays), on which JavaScript arithmetic is exact; they are
modelled by `Nat` and `Int`. Time is counted in milliseconds.
-/

namespace Portfolio

/-! ## Strings -/

/-- A JavaScript string: the list of its UTF-16 code units. -/
abbrev JSString := List Nat

/-- The code units of a string literal of the script (all of them are in the
Basic Multilingual Plane, so one character is one code unit). -/
def lit (s : String) : JSString := s.toList.map Char.toNat

/-- Code units that ECMAScript treats as white space or line terminator: the
set matched by `\s` in a regular expression and stripped by
`String.prototype.trim`. -/
def isWhiteSpace (c : Nat) : Bool :=
  c == 0x09 || c == 0x0A || c == 0x0B || c == 0x0C || c == 0x0D || c == 0x20 ||
  c == 0xA0 || c == 0x1680 || (0x2000 ≤ c && c ≤ 0x200A) ||
  c == 0x2028 || c == 0x2029 || c == 0x202F || c == 0x205F || c == 0x3000 ||
  c == 0xFEFF

/-- Implements `String.prototype.trim`: strips white space from both ends. -/
def trim (s : JSString) : JSString :=
  ((s.dropWhile isWhiteSpace).reverse.dropWhile isWhiteSpace).reverse

/-- JavaScript truthiness of a string: the empty string is falsy. -/
def truthy (s : JSString) : Bool := !s.isEmpty

/-! ## Regular expressions -/

/-- Regular expressions over code units, with character classes given by a
predicate on the code unit. -/
inductive RegExp where
  | never : RegExp
  | empty : RegExp
  | cls (p : Nat → Bool) : RegExp
  | alt (r s : RegExp) : RegExp
  | seq (r s : RegExp) : RegExp
  | star (r : RegExp) : RegExp

namespace RegExp

/-- The quantifier `r+`: one or more repetitions. -/
def plus (r : RegExp) : RegExp := seq r (star r)

/-- A pattern character that matches exactly the code unit `c`. -/
def char (c : Nat) : RegExp := cls (fun d => d == c)

/-- Whether the expression matches the empty string. -/
def nullable : RegExp → Bool
  | never => false
  | empty => true
  | cls _ => false
  | alt r s => nullable r || nullable s
  | seq r s => nullable r && nullable s
  | star _ => true

/-- The residual expression after consuming the code unit `c`. -/
def deriv : RegExp → Nat → RegExp
  | never, _ => never
  | empty, _ => never
  | cls p, c => if p c then empty else never
  | alt r s, c => alt (deriv r c) (deriv s c)
  | seq r s, c =>
    if nullable r then alt (seq (deriv r c) s) (deriv s c) else seq (deriv r c) s
  | star r, c => seq (deriv r c) (star r)

/-- Whether the expression matches the whole of the string. -/
def rmatch : RegExp → JSString → Bool
  | r, [] => nullable r
  | r, c :: s => rmatch (deriv r c) s

/-- The strings an expression matches, as a relation. -/
inductive Matches : RegExp → JSString → Prop
  | empty : Matches empty []
  | cls (p : Nat → Bool) (c : Nat) : p c = true → Matches (cls p) [c]
  | altL (r s : RegExp) (x : JSString) : Matches r x → Matches (alt r s) x
  | altR (r s : RegExp) (x : JSString) : Matches s x → Matches (alt r s) x
  | seq (r s : RegExp) (x y : JSString) :
      Matches r x → Matches s y → Matches (seq r s) (x ++ y)
  | starNil (r : RegExp) : Matches (star r) []
  | starCons (r : RegExp) (x y : JSString) :
      Matches r x → Matches (star r) y → Matches (star r) (x ++ y)

end RegExp

/-- The class `[^\s@]`: any code unit that is neither white space nor `@`. -/
def notSpaceNotAt (c : Nat) : Bool := !(isWhiteSpace c || c == 0x40)

/-- The body of `/^[^\s@]+@[^\s@]+\.[^\s@]+$/` between the anchors. -/
def emailPatternBody : RegExp :=
  .seq (.plus (.cls notSpaceNotAt))
    (.seq (.char 0x40)
      (.seq (.plus (.cls notSpaceNotAt))
        (.seq (.char 0x2E) (.plus (.cls notSpaceNotAt)))))

/-- Evaluates `emailPattern.test(s)`. The pattern has no flags and is anchored by `^`
and `$` at both ends, so the search succeeds exactly when the body matches the
whole string. -/
def emailPatternTest (s : JSString) : Bool := emailPatternBody.rmatch s

/-! ## Document, timers and the toast utility -/

/-- A toast element: the `div` that `showToast` creates. -/
structure ToastNode where
  id : Nat
  className : String
  role : String
  ariaLive : String
  textContent : String
  opacity : Option String
  deriving DecidableEq, Repr

/-- The callbacks that `showToast` hands to `setTimeout`, each closed over its
toast node. -/
inductive Callback where
  | fadeIn (node : Nat) : Callback
  | fadeOut (node : Nat) : Callback
  | removeNode (node : Nat) : Callback
  deriving DecidableEq, Repr

/-- A pending `setTimeout` timer: the time (in ms) at which it is due and its
callback. -/
structure Timer where
  due : Nat
  callback : Callback
  deriving DecidableEq, Repr

/-- The part of the page that the toast utility touches: the clock, the toast
children of `document.body` and the pending timers. -/
structure Document where
  now : Nat
  nextId : Nat
  body : List ToastNode
  timers : List Timer
  deriving DecidableEq, Repr

/-- Assigns `style.opacity` of the toast with the given id. -/
def setOpacity (body : List ToastNode) (node : Nat) (v : String) : List ToastNode :=
  body.map fun t => if t.id = node then { t with opacity := some v } else t

/-- Implements `showToast(msg, type)`: creates the node, appends it to the body and
schedules the fade-in after 10 ms and the fade-out after 3500 ms. -/
def showToast (doc : Document) (msg : String) (type : String) : Document :=
  let t : ToastNode :=
    { id := doc.nextId
      className := "toast toast--" ++ type
      role := "status"
      ariaLive := "polite"
      textContent := msg
      opacity := none }
  { doc with
    nextId := doc.nextId + 1
    body := doc.body ++ [t]
    timers := doc.timers ++
      [⟨doc.now + 10, Callback.fadeIn t.id⟩, ⟨doc.now + 3500, Callback.fadeOut t.id⟩] }

/-- Runs one timer callback at the current time. The fade-out callback schedules
the removal 400 ms later. -/
def runCallback (doc : Document) : Callback → Document
  | Callback.fadeIn n => { doc with body := setOpacity doc.body n "1" }
  | Callback.fadeOut n =>
    { doc with
      body := setOpacity doc.body n "0"
      timers := doc.timers ++ [⟨doc.now + 400, Callback.removeNode n⟩] }
  | Callback.removeNode n => { doc with body := doc.body.filter fun t => t.id != n }

/-- The pending timer that fires next: the earliest due, the first scheduled
among equals. -/
def nextTimer : List Timer → Option Timer
  | [] => none
  | t :: ts =>
    match nextTimer ts with
    | none => some t
    | some u => if t.due ≤ u.due then some t else some u

/-- One turn of the event loop: the next timer fires exactly when it is due. -/
def fireNext (doc : Document) : Option Document :=
  match nextTimer doc.timers with
  | none => none
  | some t =>
    some (runCallback { doc with now := t.due, timers := doc.timers.erase t } t.callback)

/-- Whether the toast with the given id is in the document. -/
def attached (doc : Document) (node : Nat) : Bool := doc.body.any fun t => t.id == node

/-- Lets timers fire, at most `fuel` of them, until the given toast has left the
document, and returns the time at which it did. -/
def removalTime : Nat → Document → Nat → Option Nat
  | 0, _, _ => none
  | fuel + 1, doc, node =>
    match fireNext doc with
    | none => none
    | some doc1 => if attached doc1 node then removalTime fuel doc1 node else some doc1.now

/-- The toast that a timer callback is closed over. -/
def Callback.node : Callback → Nat
  | Callback.fadeIn n => n
  | Callback.fadeOut n => n
  | Callback.removeNode n => n

/-- The number of timer firings that a pending timer stands for: a fade-out
timer schedules one more timer when it fires. -/
def timerWeight (t : Timer) : Nat :=
  match t.callback with
  | Callback.fadeOut _ => 2
  | _ => 1

/-- A bound on the number of timer firings until no timer is pending. -/
def pendingWork (timers : List Timer) : Nat := (timers.map timerWeight).sum

/-! ## Contact form -/

/-- A form control; only its `value` matters to the script. -/
structure Control where
  value : JSString
  deriving DecidableEq, Repr

/-- The contact form: the controls that `contactForm.name`, `contactForm.email`
and `contactForm.message` resolve to, when there are such controls. -/
structure ContactForm where
  name : Option Control
  email : Option Control
  message : Option Control
  deriving DecidableEq, Repr

/-- Modelled from the spec: the markup of the contact form is not part of the
script. The spec says that resetting the form clears its fields, so the default
value of every control is the empty string. -/
def defaultValue : JSString := []

/-- Implements `contactForm.reset()`: every control goes back to its default value. -/
def ContactForm.reset (f : ContactForm) : ContactForm :=
  { name := f.name.map fun _ => ⟨defaultValue⟩
    email := f.email.map fun _ => ⟨defaultValue⟩
    message := f.message.map fun _ => ⟨defaultValue⟩ }

/-- Evaluates `(control && control.value || '').trim()`. -/
def fieldValue (c : Option Control) : JSString :=
  match c with
  | none => trim []
  | some c => if truthy c.value then trim c.value else trim []

/-- What one run of the submit handler leaves behind. -/
structure SubmitResult where
  doc : Document
  form : ContactForm
  defaultPrevented : Bool
  resetCalls : Nat
  deriving DecidableEq, Repr

/-- The `submit` listener of the contact form. -/
def submitHandler (doc : Document) (form : ContactForm) : SubmitResult :=
  let name := fieldValue form.name
  let email := fieldValue form.email
  let message := fieldValue form.message
  if !truthy name || !truthy email || !truthy message then
    { doc := showToast doc "Please complete all fields." "error"
      form := form, defaultPrevented := true, resetCalls := 0 }
  else if !emailPatternTest email then
    { doc := showToast doc "Enter a valid email address." "error"
      form := form, defaultPrevented := true, resetCalls := 0 }
  else
    { doc := showToast doc "Message sent — I will get back to you!" "success"
      form := form.reset, defaultPrevented := true, resetCalls := 1 }

/-- The shape of an e-mail address in the words of the spec: characters that are
neither white space nor `@`, then `@`, then such characters again, then `.`,
then characters that are not white space; each run is non-empty. -/
def SpecEmailShape (s : JSString) : Prop :=
  ∃ a b c : JSString, s = a ++ 0x40 :: (b ++ 0x2E :: c) ∧
    (a ≠ [] ∧ ∀ x ∈ a, isWhiteSpace x = false ∧ x ≠ 0x40) ∧
    (b ≠ [] ∧ ∀ x ∈ b, isWhiteSpace x = false ∧ x ≠ 0x40) ∧
    (c ≠ [] ∧ ∀ x ∈ c, isWhiteSpace x = false)

/-- The shape of an e-mail address where the last run, too, is free of `@`. -/
def EmailShape (s : JSString) : Prop :=
  ∃ a b c : JSString, s = a ++ 0x40 :: (b ++ 0x2E :: c) ∧
    (a ≠ [] ∧ ∀ x ∈ a, isWhiteSpace x = false ∧ x ≠ 0x40) ∧
    (b ≠ [] ∧ ∀ x ∈ b, isWhiteSpace x = false ∧ x ≠ 0x40) ∧
    (c ≠ [] ∧ ∀ x ∈ c, isWhiteSpace x = false ∧ x ≠ 0x40)

/-! ## Testimonial slider -/

/-- The tween that a slider tick requests:
`gsap.to(testimonialsWrapper, { x, duration: 1.2, ease: "power3.inOut" })`. -/
structure SlideTween where
  x : Int
  durationMs : Nat
  ease : String
  deriving DecidableEq, Repr

/-- The closure of one call of `setupTestimonials`: the number of slides, the
width measured by that call, the index `currentSlide` and the tweens requested
so far, oldest first. -/
structure Slider where
  slidesLength : Nat
  slideWidth : Int
  currentSlide : Nat
  requested : List SlideTween
  deriving DecidableEq, Repr

/-- The closure as `setupTestimonials` creates it: `currentSlide = 0`. -/
def Slider.start (slidesLength : Nat) (slideWidth : Int) : Slider :=
  { slidesLength := slidesLength, slideWidth := slideWidth, currentSlide := 0, requested := [] }

/-- The timer callback `animateSlides`: advances the index modulo the number of
slides and requests the offset `-currentSlide * slideWidth`. -/
def animateSlides (s : Slider) : Slider :=
  let currentSlide := (s.currentSlide + 1) % s.slidesLength
  { s with
    currentSlide := currentSlide
    requested := s.requested ++
      [{ x := -(currentSlide : Int) * s.slideWidth, durationMs := 1200, ease := "power3.inOut" }] }

/-- The timer state around `setupTestimonials`: the variable
`testimonialInterval` (`none` while undefined), the next handle the browser will
hand out (handles are shared by all timers of the page) and the interval timers
created by `setupTestimonials` that are active, each with its closure. -/
structure TestimonialState where
  testimonialInterval : Option Nat
  nextHandle : Nat
  intervals : List (Nat × Slider)
  deriving DecidableEq, Repr

/-- The state before the first call: no timer yet; browsers number timers from 1. -/
def TestimonialState.init : TestimonialState :=
  { testimonialInterval := none, nextHandle := 1, intervals := [] }

/-- Implements `clearInterval(handle)`. -/
def clearInterval (st : TestimonialState) (handle : Nat) : TestimonialState :=
  { st with intervals := st.intervals.filter fun e => e.1 != handle }

/-- Implements `setupTestimonials()`. `wrapper` tells whether `.testimonials__wrapper` was
found, `slidesLength` is `slides.length` and `firstWidth` is `slides[0].offsetWidth` as
measured by this call. -/
def setupTestimonials (wrapper : Bool) (slidesLength : Nat) (firstWidth : Int)
    (st : TestimonialState) : TestimonialState :=
  if !wrapper || slidesLength == 0 then st
  else
    let closure := Slider.start slidesLength firstWidth
    let st1 :=
      match st.testimonialInterval with
      | some h => if h != 0 then clearInterval st h else st
      | none => st
    { testimonialInterval := some st1.nextHandle
      nextHandle := st1.nextHandle + 1
      intervals := st1.intervals ++ [(st1.nextHandle, closure)] }

/-- What can happen to the testimonial timers after load: a resize makes the
page call `setupTestimonials` again (with the width measured then), the 5000 ms
period elapses and the active interval timers fire, or some other part of the
page takes a timer handle. -/
inductive SliderEvent where
  | setup (firstWidth : Int) : SliderEvent
  | tick : SliderEvent
  | otherTimer : SliderEvent
  deriving DecidableEq, Repr

/-- The effect of one event on the timer state. -/
def sliderStep (wrapper : Bool) (slidesLength : Nat) (st : TestimonialState) :
    SliderEvent → TestimonialState
  | SliderEvent.setup w => setupTestimonials wrapper slidesLength w st
  | SliderEvent.tick => { st with intervals := st.intervals.map fun e => (e.1, animateSlides e.2) }
  | SliderEvent.otherTimer => { st with nextHandle := st.nextHandle + 1 }

/-- The timer state after the call at load (with width `w0`) and the given events. -/
def sliderRun (wrapper : Bool) (slidesLength : Nat) (w0 : Int) (evs : List SliderEvent) :
    TestimonialState :=
  evs.foldl (sliderStep wrapper slidesLength)
    (setupTestimonials wrapper slidesLength w0 TestimonialState.init)

/-! ## Nav-glass controller -/

/-- An exception thrown by the script. -/
inductive JSError where
  | typeError (message : String) : JSError
  deriving DecidableEq, Repr

/-- Implements `classList.remove(token)`. -/
def classRemove (classes : List String) (token : String) : List String :=
  classes.filter fun c => c != token

/-- Implements `classList.add(token)`. -/
def classAdd (classes : List String) (token : String) : List String :=
  if classes.contains token then classes else classes ++ [token]

/-- The desktop breakpoint: `window.innerWidth >= 768`. -/
def isDesktop (innerWidth : Nat) : Bool := decide (innerWidth ≥ 768)

/-- The state of the nav-glass controller: the class list of the element that
`document.querySelector('.nav')` returned (`none` when it returned `null`), the
variable `navTrigger`, and the scroll watchers that `setupNavGlass` created and
that have not been killed, identified by creation number. -/
structure NavState where
  nav : Option (List String)
  navTrigger : Option Nat
  nextTrigger : Nat
  live : List Nat
  deriving DecidableEq, Repr

/-- The controller state before the first call of `setupNavGlass`. -/
def NavState.init (nav : Option (List String)) : NavState :=
  { nav := nav, navTrigger := none, nextTrigger := 0, live := [] }

/-- Implements `setupNavGlass()` at the given `window.innerWidth`. Killing the old watcher
is guarded and wrapped in `try`, and the library's `kill` takes the watcher out
of the live ones; the class list of `nav` is used unguarded, which throws a
`TypeError` when `nav` is `null`. -/
def setupNavGlass (innerWidth : Nat) (st : NavState) : Except JSError NavState :=
  let live1 :=
    match st.navTrigger with
    | some t => st.live.filter fun u => u != t
    | none => st.live
  match st.nav with
  | none => Except.error (JSError.typeError "nav is null")
  | some classes =>
    let classes1 := classRemove classes "glass-effect"
    if isDesktop innerWidth then
      Except.ok
        { nav := some classes1
          navTrigger := some st.nextTrigger
          nextTrigger := st.nextTrigger + 1
          live := live1 ++ [st.nextTrigger] }
    else
      Except.ok
        { nav := some (classAdd classes1 "glass-effect")
          navTrigger := none
          nextTrigger := st.nextTrigger
          live := live1 }

/-- What happens to the nav-glass controller: a call of `setupNavGlass` at the given
viewport width (the call at load, or one made by the debounced resize
listener), or the page scrolling past the start of the watched range in either
direction, which makes the library run `onEnter` or `onLeaveBack` of the live
watchers. -/
inductive NavEvent where
  | setup (innerWidth : Nat) : NavEvent
  | enter : NavEvent
  | leaveBack : NavEvent
  deriving DecidableEq, Repr

/-- The effect of one event on the controller. The callbacks of a watcher run only
while it is live: `onEnter` adds the class 'glass-effect' to the nav and
`onLeaveBack` removes it. -/
def navStep (st : NavState) : NavEvent → Except JSError NavState
  | NavEvent.setup w => setupNavGlass w st
  | NavEvent.enter =>
    Except.ok
      (if st.live.isEmpty then st
       else { st with nav := st.nav.map fun classes => classAdd classes "glass-effect" })
  | NavEvent.leaveBack =>
    Except.ok
      (if st.live.isEmpty then st
       else { st with nav := st.nav.map fun classes => classRemove classes "glass-effect" })

/-- The controller state after a sequence of events, stopping at the first
exception. -/
def navRun (st : NavState) : List NavEvent → Except JSError NavState
  | [] => Except.ok st
  | ev :: evs =>
    match navStep st ev with
    | Except.error e => Except.error e
    | Except.ok st1 => navRun st1 evs

/-! ## Horizontal project scroller -/

/-- The layout metrics that the scroller reads: `projectsContainer.scrollWidth` and
`document.documentElement.clientWidth`. -/
structure Layout where
  scrollWidth : Int
  clientWidth : Int
  deriving DecidableEq, Repr

/-- The function-based values handed to the library for the projects tween. The
library calls them at setup and again at every refresh (`invalidateOnRefresh`);
the argument is the layout that is live at the time of the call. -/
structure ProjectsTween where
  x : Layout → String
  scrollEnd : Layout → String
  invalidateOnRefresh : Bool

/-- The horizontal overflow of the card row in a layout. -/
def overflow (l : Layout) : Int := l.scrollWidth - l.clientWidth

/-- The projects tween as the script sets it up. `totalScroll` is a constant computed
once from the layout at setup; the two functions return values built from that
constant and do not read the layout that is live when they are called. -/
def setupProjects (atSetup : Layout) : ProjectsTween :=
  let totalScroll := atSetup.scrollWidth - atSetup.clientWidth
  { x := fun _ => toString (-(max 0 totalScroll)) ++ "px"
    scrollEnd := fun _ => "+=" ++ toString totalScroll
    invalidateOnRefresh := true }

/-- The translation target in the words of the spec: computed from the overflow
that is live at the refresh. -/
def specX (live : Layout) : String := toString (-(max 0 (overflow live))) ++ "px"

/-- The pin distance in the words of the spec: computed from the overflow that is
live at the refresh. -/
def specScrollEnd (live : Layout) : String := "+=" ++ toString (overflow live)

/-! ## The `DOMContentLoaded` handler -/

/-- The page as the handler finds it: the viewport width, the number of elements
that each selector matches, the class list of the nav element, and the layout
metrics read during setup. -/
structure Page where
  innerWidth : Nat
  count : String → Nat
  navClasses : List String
  layout : Layout
  firstSlideWidth : Int

/-- Whether `document.querySelector(selector)` finds an element. -/
def Page.has (page : Page) (selector : String) : Bool := page.count selector != 0

/-- What the handler has set up when it returns: the nav controller, the two
resize listeners, the targets of the intro timeline, of the direct tweens and
of the scroll reveals, the projects tween (desktop only), the testimonial
timers, and whether the submit listener is attached. -/
structure Setup where
  navState : NavState
  resizeListeners : Nat
  timeline : List String
  tweens : List String
  reveals : List String
  projects : Option ProjectsTween
  testimonials : TestimonialState
  submitListener : Bool

/-- The helper `animateOnScroll(selector, vars)`: a silent no-op when the selector matches
nothing, otherwise one more reveal animation. -/
def animateOnScroll (page : Page) (selector : String) (reveals : List String) : List String :=
  if !page.has selector then reveals else reveals ++ [selector]

/-- The body of the `DOMContentLoaded` listener, in source order. Calls into the
animation library do not throw (a selector without targets is skipped with a
warning). -/
def domContentLoaded (page : Page) : Except JSError Setup :=
  let nav := if page.has ".nav" then some page.navClasses else none
  match setupNavGlass page.innerWidth (NavState.init nav) with
  | Except.error e => Except.error e
  | Except.ok navState =>
    let timeline := [".header", ".hero__title", ".hero__subtitle", ".hero__button", ".hero__bg"]
    let reveals0 := List.replicate (page.count ".section__title") ".section__title"
    let reveals1 := animateOnScroll page ".about__image" reveals0
    let reveals2 := animateOnScroll page ".about__data" reveals1
    let projects :=
      if isDesktop page.innerWidth && page.has ".projects__container" then
        some (setupProjects page.layout)
      else none
    let testimonials :=
      setupTestimonials (page.has ".testimonials__wrapper") (page.count ".testimonials__slide")
        page.firstSlideWidth TestimonialState.init
    let reveals3 := animateOnScroll page ".testimonials__container" reveals2
    let reveals4 := animateOnScroll page ".contact__content" reveals3
    let submitListener := page.has ".contact__form"
    let reveals5 := animateOnScroll page ".footer__container" reveals4
    Except.ok
      { navState := navState
        resizeListeners := 2
        timeline := timeline
        tweens := [".skills__card", ".contact__form-div"]
        reveals := reveals5
        projects := projects
        testimonials := testimonials
        submitListener := submitListener }

/-! ## The matcher agrees with the matching relation -/

namespace RegExp

theorem not_matches_never (x : JSString) : ¬ Matches never x := by
  intro h
  cases h

theorem matches_empty_iff (x : JSString) : Matches empty x ↔ x = [] := by
  constructor
  · intro h
    cases h
    rfl
  · rintro rfl
    exact Matches.empty

theorem matches_cls_iff (p : Nat → Bool) (x : JSString) :
    Matches (cls p) x ↔ ∃ c, x = [c] ∧ p c = true := by
  constructor
  · intro h
    cases h with
    | cls _ c hc => exact ⟨c, rfl, hc⟩
  · rintro ⟨c, rfl, hc⟩
    exact Matches.cls p c hc

theorem matches_alt_iff (r s : RegExp) (x : JSString) :
    Matches (alt r s) x ↔ Matches r x ∨ Matches s x := by
  constructor
  · intro h
    cases h with
    | altL _ _ _ h => exact Or.inl h
    | altR _ _ _ h => exact Or.inr h
  · rintro (h | h)
    · exact Matches.altL r s x h
    · exact Matches.altR r s x h

theorem matches_seq_iff (r s : RegExp) (z : JSString) :
    Matches (seq r s) z ↔ ∃ x y, z = x ++ y ∧ Matches r x ∧ Matches s y := by
  constructor
  · intro h
    cases h with
    | seq _ _ x y hx hy => exact ⟨x, y, rfl, hx, hy⟩
  · rintro ⟨x, y, rfl, hx, hy⟩
    exact Matches.seq r s x y hx hy

theorem matches_star_cons_aux (r : RegExp) (c : Nat) :
    ∀ (e : RegExp) (w : JSString), Matches e w → ∀ z, e = star r → w = c :: z →
      ∃ x y, z = x ++ y ∧ Matches r (c :: x) ∧ Matches (star r) y := by
  intro e w h
  induction h with
  | empty => intro z he; cases he
  | cls p d hd => intro z he; cases he
  | altL r1 s1 x h ih => intro z he; cases he
  | altR r1 s1 x h ih => intro z he; cases he
  | seq r1 s1 x y hx hy ihx ihy => intro z he; cases he
  | starNil r1 => intro z _ hw; cases hw
  | starCons r1 x y hx hy _ ihy =>
    intro z he hw
    cases he
    cases x with
    | nil => exact ihy z rfl hw
    | cons d x1 =>
      simp only [List.cons_append, List.cons.injEq] at hw
      obtain ⟨rfl, rfl⟩ := hw
      exact ⟨x1, y, rfl, hx, hy⟩

theorem matches_star_cons_iff (r : RegExp) (c : Nat) (z : JSString) :
    Matches (star r) (c :: z) ↔
      ∃ x y, z = x ++ y ∧ Matches r (c :: x) ∧ Matches (star r) y := by
  constructor
  · intro h
    exact matches_star_cons_aux r c (star r) (c :: z) h z rfl rfl
  · rintro ⟨x, y, rfl, hx, hy⟩
    exact Matches.starCons r (c :: x) y hx hy

theorem nullable_iff (r : RegExp) : nullable r = true ↔ Matches r [] := by
  induction r with
  | never => simp [nullable, not_matches_never]
  | empty => simp [nullable, matches_empty_iff]
  | cls p => simp [nullable, matches_cls_iff]
  | alt r s ihr ihs => simp [nullable, matches_alt_iff, ihr, ihs]
  | seq r s ihr ihs =>
    simp only [nullable, Bool.and_eq_true, ihr, ihs, matches_seq_iff]
    constructor
    · rintro ⟨hr, hs⟩
      exact ⟨[], [], rfl, hr, hs⟩
    · rintro ⟨x, y, hxy, hx, hy⟩
      have hx0 : x = [] := (List.append_eq_nil.mp hxy.symm).1
      have hy0 : y = [] := (List.append_eq_nil.mp hxy.symm).2
      subst hx0
      subst hy0
      exact ⟨hx, hy⟩
  | star r _ => simp [nullable, Matches.starNil]

theorem deriv_iff (r : RegExp) (c : Nat) (x : JSString) :
    Matches (deriv r c) x ↔ Matches r (c :: x) := by
  induction r generalizing x with
  | never => simp [deriv, not_matches_never]
  | empty => simp [deriv, not_matches_never, matches_empty_iff]
  | cls p =>
    by_cases hp : p c = true
    · simp only [deriv, hp, if_true, matches_empty_iff, matches_cls_iff]
      constructor
      · rintro rfl
        exact ⟨c, rfl, hp⟩
      · rintro ⟨d, hd, _⟩
        simp only [List.cons.injEq] at hd
        exact hd.2
    · simp only [deriv, hp, matches_cls_iff]
      constructor
      · intro h
        exact absurd h (not_matches_never x)
      · rintro ⟨d, hd, hpd⟩
        simp only [List.cons.injEq] at hd
        rw [← hd.1] at hpd
        exact absurd hpd hp
  | alt r s ihr ihs => simp [deriv, matches_alt_iff, ihr, ihs]
  | seq r s ihr ihs =>
    have key : Matches (seq r s) (c :: x) ↔
        (∃ u v, x = u ++ v ∧ Matches r (c :: u) ∧ Matches s v) ∨
          (Matches r [] ∧ Matches s (c :: x)) := by
      rw [matches_seq_iff]
      constructor
      · rintro ⟨u, v, huv, hu, hv⟩
        cases u with
        | nil =>
          right
          simp only [List.nil_append] at huv
          rw [huv]
          exact ⟨hu, hv⟩
        | cons d u1 =>
          left
          simp only [List.cons_append, List.cons.injEq] at huv
          obtain ⟨rfl, rfl⟩ := huv
          exact ⟨u1, v, rfl, hu, hv⟩
      · rintro (⟨u, v, rfl, hu, hv⟩ | ⟨hr, hs⟩)
        · exact ⟨c :: u, v, rfl, hu, hv⟩
        · exact ⟨[], c :: x, rfl, hr, hs⟩
    rw [key]
    by_cases hn : nullable r = true
    · simp only [deriv, hn, if_true, matches_alt_iff, matches_seq_iff, ihr, ihs,
        ← nullable_iff, true_and]
    · have hn2 : ¬ Matches r [] := fun h => hn ((nullable_iff r).mpr h)
      simp only [hn2, false_and, or_false]
      have hd : deriv (seq r s) c = seq (deriv r c) s := by simp [deriv, hn]
      rw [hd, matches_seq_iff]
      simp only [ihr]
  | star r ihr =>
    simp only [deriv, matches_seq_iff, ihr, matches_star_cons_iff]

theorem rmatch_iff (r : RegExp) (x : JSString) : rmatch r x = true ↔ Matches r x := by
  induction x generalizing r with
  | nil => simp [rmatch, nullable_iff]
  | cons c x ih => simp [rmatch, ih, deriv_iff]

theorem matches_star_cls_iff (p : Nat → Bool) (x : JSString) :
    Matches (star (cls p)) x ↔ ∀ c ∈ x, p c = true := by
  induction x with
  | nil => simp [Matches.starNil]
  | cons c x ih =>
    rw [matches_star_cons_iff]
    constructor
    · rintro ⟨u, v, rfl, hu, hv⟩
      rw [matches_cls_iff] at hu
      obtain ⟨d, hd, hpd⟩ := hu
      simp only [List.cons.injEq] at hd
      obtain ⟨rfl, rfl⟩ := hd
      simp only [List.nil_append] at ih ⊢
      intro e he
      rcases List.mem_cons.mp he with rfl | he
      · exact hpd
      · exact ih.mp hv e he
    · intro h
      refine ⟨[], x, rfl, ?_, ?_⟩
      · exact Matches.cls p c (h c (List.mem_cons_self c x))
      · exact ih.mpr (fun e he => h e (List.mem_cons_of_mem c he))

theorem matches_plus_cls_iff (p : Nat → Bool) (x : JSString) :
    Matches (plus (cls p)) x ↔ x ≠ [] ∧ ∀ c ∈ x, p c = true := by
  unfold plus
  rw [matches_seq_iff]
  constructor
  · rintro ⟨u, v, rfl, hu, hv⟩
    rw [matches_cls_iff] at hu
    obtain ⟨d, rfl, hpd⟩ := hu
    rw [matches_star_cls_iff] at hv
    refine ⟨by simp, ?_⟩
    intro e he
    rcases List.mem_cons.mp he with rfl | he
    · exact hpd
    · exact hv e he
  · rintro ⟨hne, h⟩
    cases x with
    | nil => exact absurd rfl hne
    | cons c x =>
      refine ⟨[c], x, rfl, Matches.cls p c (h c (List.mem_cons_self c x)), ?_⟩
      exact (matches_star_cls_iff p x).mpr (fun e he => h e (List.mem_cons_of_mem c he))

theorem matches_char_iff (c : Nat) (x : JSString) : Matches (char c) x ↔ x = [c] := by
  unfold char
  rw [matches_cls_iff]
  constructor
  · rintro ⟨d, rfl, hd⟩
    simp only [beq_iff_eq] at hd
    rw [hd]
  · rintro rfl
    exact ⟨c, rfl, by simp⟩

end RegExp

/-! ## The e-mail check -/

theorem notSpaceNotAt_iff (x : Nat) :
    notSpaceNotAt x = true ↔ isWhiteSpace x = false ∧ x ≠ 0x40 := by
  unfold notSpaceNotAt
  cases h : isWhiteSpace x <;> simp

theorem run_iff (a : JSString) :
    (a ≠ [] ∧ ∀ c ∈ a, notSpaceNotAt c = true) ↔
      (a ≠ [] ∧ ∀ x ∈ a, isWhiteSpace x = false ∧ x ≠ 0x40) := by
  constructor
  · rintro ⟨h1, h2⟩
    exact ⟨h1, fun x hx => (notSpaceNotAt_iff x).mp (h2 x hx)⟩
  · rintro ⟨h1, h2⟩
    exact ⟨h1, fun x hx => (notSpaceNotAt_iff x).mpr (h2 x hx)⟩

/-- Claim C4, as the code has it: `emailPattern.test(s)` is true exactly when `s` is a
non-empty run of characters that are neither white space nor `@`, then `@`,
then such a run again, then `.`, then a third such run; the part after the
last required `.` is free of `@` as well as of white space. -/
theorem emailPatternTest_iff_emailShape (s : JSString) :
    emailPatternTest s = true ↔ EmailShape s := by
  unfold emailPatternTest emailPatternBody EmailShape
  rw [RegExp.rmatch_iff]
  simp only [RegExp.matches_seq_iff, RegExp.matches_plus_cls_iff, RegExp.matches_char_iff,
    run_iff]
  constructor
  · rintro ⟨a, y, rfl, ha, u1, y1, rfl, rfl, b, y2, rfl, hb, u2, c, rfl, rfl, hc⟩
    exact ⟨a, b, c, by simp, ha, hb, hc⟩
  · rintro ⟨a, b, c, rfl, ha, hb, hc⟩
    exact ⟨a, _, rfl, ha, [0x40], _, rfl, rfl, b, _, rfl, hb, [0x2E], c, rfl, rfl, hc⟩

/-- Claim C4 as stated fails: `a@b.c@d` has the shape the spec gives (the part after
the `.` is `c@d`, free of white space), yet `emailPattern.test` rejects it. -/
theorem emailPatternTest_rejects_spec_shape :
    SpecEmailShape (lit "a@b.c@d") ∧ emailPatternTest (lit "a@b.c@d") = false := by
  refine ⟨⟨lit "a", lit "b", lit "c@d", by decide, ?_, ?_, ?_⟩, by decide⟩
  · exact ⟨by decide, by decide⟩
  · exact ⟨by decide, by decide⟩
  · exact ⟨by decide, by decide⟩

/-! ## The submit handler -/

theorem trim_nil : trim [] = [] := rfl

theorem trim_eq_nil_iff (s : JSString) : trim s = [] ↔ ∀ c ∈ s, isWhiteSpace c = true := by
  unfold trim
  rw [List.reverse_eq_nil_iff, List.dropWhile_eq_nil_iff]
  constructor
  · intro h
    by_contra hne
    have hd : s.dropWhile isWhiteSpace ≠ [] := by
      rw [Ne, List.dropWhile_eq_nil_iff]
      exact hne
    have hhead := List.head_dropWhile_not isWhiteSpace s hd
    have hmem : (s.dropWhile isWhiteSpace).head hd ∈ (s.dropWhile isWhiteSpace).reverse :=
      List.mem_reverse.mpr (List.head_mem hd)
    have := h _ hmem
    rw [this] at hhead
    exact absurd hhead (by simp)
  · intro h
    have hd : s.dropWhile isWhiteSpace = [] := List.dropWhile_eq_nil_iff.mpr h
    rw [hd]
    simp

theorem fieldValue_some (c : Control) : fieldValue (some c) = trim c.value := by
  obtain ⟨v⟩ := c
  cases v with
  | nil => rfl
  | cons a t => rfl

theorem fieldValue_eq_nil_iff (c : Option Control) :
    fieldValue c = [] ↔
      c = none ∨ ∃ ctl, c = some ctl ∧ ∀ x ∈ ctl.value, isWhiteSpace x = true := by
  cases c with
  | none => simp [fieldValue, trim_nil]
  | some ctl => simp [fieldValue_some, trim_eq_nil_iff]

theorem truthy_eq_false_iff (s : JSString) : truthy s = false ↔ s = [] := by
  cases s <;> simp [truthy]

/-- Claim C1: when at least one of `name`, `email`, `message` is empty after trimming
(the control being absent counts as empty), the submit handler shows exactly the
error toast 'Please complete all fields.', does not call the form's reset, and
leaves the form as it was. -/
theorem submit_missing_field (doc : Document) (form : ContactForm)
    (h : fieldValue form.name = [] ∨ fieldValue form.email = [] ∨
      fieldValue form.message = []) :
    (submitHandler doc form).doc = showToast doc "Please complete all fields." "error" ∧
    (submitHandler doc form).doc.body = doc.body ++
      [{ id := doc.nextId, className := "toast toast--error", role := "status",
         ariaLive := "polite", textContent := "Please complete all fields.",
         opacity := none }] ∧
    (submitHandler doc form).resetCalls = 0 ∧
    (submitHandler doc form).form = form := by
  have hc : (!truthy (fieldValue form.name) || !truthy (fieldValue form.email) ||
      !truthy (fieldValue form.message)) = true := by
    rcases h with h | h | h <;> simp [h, truthy]
  have hres : submitHandler doc form =
      { doc := showToast doc "Please complete all fields." "error"
        form := form, defaultPrevented := true, resetCalls := 0 } := by
    unfold submitHandler
    simp only [hc]
    simp
  rw [hres]
  exact ⟨rfl, rfl, rfl, rfl⟩

theorem submit_missing_field_witness :
    (fieldValue (some ⟨lit "Ann"⟩) = [] ∨ fieldValue (some ⟨lit " \t "⟩) = [] ∨
      fieldValue none = []) ∧
    (submitHandler ⟨0, 0, [], []⟩ ⟨some ⟨lit "Ann"⟩, some ⟨lit " \t "⟩, none⟩).resetCalls = 0 :=
  ⟨by decide,
    (submit_missing_field ⟨0, 0, [], []⟩ ⟨some ⟨lit "Ann"⟩, some ⟨lit " \t "⟩, none⟩
      (by decide)).2.2.1⟩

/-- Claim C2: when `name`, `email` and `message` are all non-empty after trimming and the
trimmed email passes the email check, the submit handler shows exactly one
toast, of type 'success' (so no error toast), and resets the form once, which
leaves all three fields empty. -/
theorem submit_valid (doc : Document) (form : ContactForm)
    (hn : fieldValue form.name ≠ []) (he : fieldValue form.email ≠ [])
    (hm : fieldValue form.message ≠ [])
    (hv : emailPatternTest (fieldValue form.email) = true) :
    (submitHandler doc form).doc.body = doc.body ++
      [{ id := doc.nextId, className := "toast toast--success", role := "status",
         ariaLive := "polite", textContent := "Message sent — I will get back to you!",
         opacity := none }] ∧
    (submitHandler doc form).resetCalls = 1 ∧
    (submitHandler doc form).form = form.reset ∧
    (submitHandler doc form).form.name = some ⟨[]⟩ ∧
    (submitHandler doc form).form.email = some ⟨[]⟩ ∧
    (submitHandler doc form).form.message = some ⟨[]⟩ := by
  have hc : (!truthy (fieldValue form.name) || !truthy (fieldValue form.email) ||
      !truthy (fieldValue form.message)) = false := by
    cases h1 : fieldValue form.name with
    | nil => exact absurd h1 hn
    | cons _ _ =>
      cases h2 : fieldValue form.email with
      | nil => exact absurd h2 he
      | cons _ _ =>
        cases h3 : fieldValue form.message with
        | nil => exact absurd h3 hm
        | cons _ _ => simp [truthy]
  have hres : submitHandler doc form =
      { doc := showToast doc "Message sent — I will get back to you!" "success"
        form := form.reset, defaultPrevented := true, resetCalls := 1 } := by
    unfold submitHandler
    simp only [hc, hv]
    simp
  rw [hres]
  obtain ⟨n, e, m⟩ := form
  cases n with
  | none => exact absurd (by simp [fieldValue, trim_nil]) hn
  | some n =>
    cases e with
    | none => exact absurd (by simp [fieldValue, trim_nil]) he
    | some e =>
      cases m with
      | none => exact absurd (by simp [fieldValue, trim_nil]) hm
      | some m => exact ⟨rfl, rfl, rfl, rfl, rfl, rfl⟩

theorem submit_valid_witness :
    (submitHandler ⟨0, 0, [], []⟩
      ⟨some ⟨lit "A"⟩, some ⟨lit "a@b.com"⟩, some ⟨lit "hi"⟩⟩).form =
        ⟨some ⟨[]⟩, some ⟨[]⟩, some ⟨[]⟩⟩ ∧
    (submitHandler ⟨0, 0, [], []⟩
      ⟨some ⟨lit "A"⟩, some ⟨lit "a@b.com"⟩, some ⟨lit "hi"⟩⟩).resetCalls = 1 := by
  have h := submit_valid ⟨0, 0, [], []⟩
    ⟨some ⟨lit "A"⟩, some ⟨lit "a@b.com"⟩, some ⟨lit "hi"⟩⟩
    (by decide) (by decide) (by decide) (by decide)
  exact ⟨by rw [h.2.2.1]; rfl, h.2.1⟩

/-- Claim C3: when `name`, `email` and `message` are all non-empty after trimming but the
trimmed email fails the email check, the submit handler shows exactly the error
toast 'Enter a valid email address.', which is not the missing-fields toast,
does not call the form's reset and leaves the form as it was. -/
theorem submit_invalid_email (doc : Document) (form : ContactForm)
    (hn : fieldValue form.name ≠ []) (he : fieldValue form.email ≠ [])
    (hm : fieldValue form.message ≠ [])
    (hv : emailPatternTest (fieldValue form.email) = false) :
    (submitHandler doc form).doc = showToast doc "Enter a valid email address." "error" ∧
    (submitHandler doc form).doc.body = doc.body ++
      [{ id := doc.nextId, className := "toast toast--error", role := "status",
         ariaLive := "polite", textContent := "Enter a valid email address.",
         opacity := none }] ∧
    (submitHandler doc form).doc ≠ showToast doc "Please complete all fields." "error" ∧
    (submitHandler doc form).resetCalls = 0 ∧
    (submitHandler doc form).form = form := by
  have hc : (!truthy (fieldValue form.name) || !truthy (fieldValue form.email) ||
      !truthy (fieldValue form.message)) = false := by
    cases h1 : fieldValue form.name with
    | nil => exact absurd h1 hn
    | cons _ _ =>
      cases h2 : fieldValue form.email with
      | nil => exact absurd h2 he
      | cons _ _ =>
        cases h3 : fieldValue form.message with
        | nil => exact absurd h3 hm
        | cons _ _ => simp [truthy]
  have hres : submitHandler doc form =
      { doc := showToast doc "Enter a valid email address." "error"
        form := form, defaultPrevented := true, resetCalls := 0 } := by
    unfold submitHandler
    simp only [hc, hv]
    simp
  rw [hres]
  refine ⟨rfl, rfl, ?_, rfl, rfl⟩
  intro hEq
  have hb := congrArg Document.body hEq
  simp only [showToast, List.append_cancel_left_eq, List.cons.injEq, ToastNode.mk.injEq] at hb
  exact absurd hb.1.2.2.2.2.1 (by decide)

theorem submit_invalid_email_witness :
    emailPatternTest (fieldValue (some ⟨lit "a@b"⟩)) = false ∧
    (submitHandler ⟨0, 0, [], []⟩
      ⟨some ⟨lit "A"⟩, some ⟨lit "a@b"⟩, some ⟨lit "hi"⟩⟩).resetCalls = 0 :=
  ⟨by decide,
    (submit_invalid_email ⟨0, 0, [], []⟩ ⟨some ⟨lit "A"⟩, some ⟨lit "a@b"⟩, some ⟨lit "hi"⟩⟩
      (by decide) (by decide) (by decide) (by decide)).2.2.2.1⟩

/-! ## Toast lifetime -/

theorem any_id_setOpacity (body : List ToastNode) (n m : Nat) (v : String) :
    (setOpacity body n v).any (fun t => t.id == m) = body.any (fun t => t.id == m) := by
  induction body with
  | nil => rfl
  | cons t ts ih =>
    unfold setOpacity at ih ⊢
    simp only [List.map_cons, List.any_cons, ih]
    by_cases h : t.id = n <;> simp [h]

theorem any_id_filter_ne (body : List ToastNode) (n : Nat) :
    (body.filter fun t => t.id != n).any (fun t => t.id == n) = false := by
  induction body with
  | nil => rfl
  | cons t ts ih =>
    by_cases h : t.id = n
    · simp [List.filter_cons, h, ih]
    · simp [List.filter_cons, h, ih]

theorem any_id_append_self (body : List ToastNode) (t : ToastNode) :
    (body ++ [t]).any (fun u => u.id == t.id) = true := by
  simp

theorem any_id_filter_other (body : List ToastNode) (n m : Nat) (h : m ≠ n) :
    (body.filter fun t => t.id != m).any (fun t => t.id == n) =
      body.any (fun t => t.id == n) := by
  induction body with
  | nil => rfl
  | cons t ts ih =>
    by_cases h1 : t.id = m
    · have h2 : t.id ≠ n := fun h3 => h (h1.symm.trans h3)
      simp [List.filter_cons, h1, ih, h]
    · simp [List.filter_cons, h1, ih]

theorem nextTimer_mem (l : List Timer) (t : Timer) (h : nextTimer l = some t) : t ∈ l := by
  induction l generalizing t with
  | nil => simp [nextTimer] at h
  | cons a l ih =>
    unfold nextTimer at h
    cases hn : nextTimer l with
    | none =>
      rw [hn] at h
      simp only [Option.some.injEq] at h
      rw [← h]
      exact List.mem_cons_self a l
    | some u =>
      rw [hn] at h
      by_cases hle : a.due ≤ u.due
      · simp only [hle, if_true, Option.some.injEq] at h
        rw [← h]
        exact List.mem_cons_self a l
      · simp only [hle, if_false, Option.some.injEq] at h
        rw [← h]
        exact List.mem_cons_of_mem a (ih u hn)

theorem nextTimer_isSome (l : List Timer) (h : l ≠ []) : ∃ t, nextTimer l = some t := by
  cases l with
  | nil => exact absurd rfl h
  | cons a l =>
    unfold nextTimer
    cases nextTimer l with
    | none => exact ⟨a, rfl⟩
    | some u =>
      by_cases hle : a.due ≤ u.due
      · exact ⟨a, by simp [hle]⟩
      · exact ⟨u, by simp [hle]⟩

theorem timerWeight_pos (t : Timer) : 1 ≤ timerWeight t := by
  unfold timerWeight
  split <;> decide

theorem pendingWork_erase (l : List Timer) (t : Timer) (h : t ∈ l) :
    timerWeight t + pendingWork (l.erase t) = pendingWork l :=
  List.sum_map_erase timerWeight h

theorem pendingWork_append_singleton (l : List Timer) (t : Timer) :
    pendingWork (l ++ [t]) = pendingWork l + timerWeight t := by
  simp [pendingWork]

/-- While the toast `n` is attached and its fade-out timer (due at `T + 3500`) or its
removal timer (due at `T + 3900`) is pending, letting the timers fire detaches
the toast at time `T + 3900`, given fuel for all pending work. -/
theorem removalTime_of_pending (n T : Nat) :
    ∀ (fuel : Nat) (doc : Document), pendingWork doc.timers ≤ fuel →
      attached doc n = true →
      (∀ t ∈ doc.timers, t.callback = Callback.fadeOut n → t.due = T + 3500) →
      (∀ t ∈ doc.timers, t.callback = Callback.removeNode n → t.due = T + 3900) →
      (∃ t ∈ doc.timers, t.callback = Callback.fadeOut n ∨ t.callback = Callback.removeNode n) →
      removalTime fuel doc n = some (T + 3900) := by
  intro fuel
  induction fuel with
  | zero =>
    intro doc hw _ _ _ ⟨t0, ht0, _⟩
    have h1 := timerWeight_pos t0
    have h2 := pendingWork_erase doc.timers t0 ht0
    omega
  | succ fuel ih =>
    intro doc hw hatt hfo hrm ⟨t0, ht0, hc0⟩
    obtain ⟨now, nextId, body, timers⟩ := doc
    simp only at hw hfo hrm ht0
    simp only [attached] at hatt
    obtain ⟨t, ht⟩ := nextTimer_isSome timers (List.ne_nil_of_mem ht0)
    have htm : t ∈ timers := nextTimer_mem timers t ht
    have hwe := pendingWork_erase timers t htm
    obtain ⟨due, cb⟩ := t
    simp only [removalTime, fireNext, ht]
    cases cb with
    | fadeIn m =>
      have hne : t0 ≠ ⟨due, Callback.fadeIn m⟩ := by
        rintro rfl
        rcases hc0 with h | h <;> cases h
      have hwt : timerWeight ⟨due, Callback.fadeIn m⟩ = 1 := rfl
      have hatt1 : attached (runCallback ⟨due, nextId, body,
          timers.erase ⟨due, Callback.fadeIn m⟩⟩ (Callback.fadeIn m)) n = true := by
        simp only [runCallback, attached, any_id_setOpacity]
        exact hatt
      simp only [hatt1, if_true]
      apply ih
      · simp only [runCallback]
        omega
      · exact hatt1
      · intro u hu
        exact hfo u (List.mem_of_mem_erase hu)
      · intro u hu
        exact hrm u (List.mem_of_mem_erase hu)
      · exact ⟨t0, (List.mem_erase_of_ne hne).mpr ht0, hc0⟩
    | fadeOut m =>
      have hne : m ≠ n → t0 ≠ ⟨due, Callback.fadeOut m⟩ := by
        rintro hmn rfl
        rcases hc0 with h | h
        · simp only [Callback.fadeOut.injEq] at h
          exact hmn h
        · cases h
      have hwt : timerWeight ⟨due, Callback.fadeOut m⟩ = 2 := rfl
      have hatt1 : attached (runCallback ⟨due, nextId, body,
          timers.erase ⟨due, Callback.fadeOut m⟩⟩ (Callback.fadeOut m)) n = true := by
        simp only [runCallback, attached, any_id_setOpacity]
        exact hatt
      simp only [hatt1, if_true]
      apply ih
      · simp only [runCallback, pendingWork_append_singleton]
        have : timerWeight ⟨due + 400, Callback.removeNode m⟩ = 1 := rfl
        omega
      · exact hatt1
      · intro u hu hcu
        simp only [runCallback, List.mem_append, List.mem_singleton] at hu
        rcases hu with hu | rfl
        · exact hfo u (List.mem_of_mem_erase hu) hcu
        · cases hcu
      · intro u hu hcu
        simp only [runCallback, List.mem_append, List.mem_singleton] at hu
        rcases hu with hu | rfl
        · exact hrm u (List.mem_of_mem_erase hu) hcu
        · simp only [Callback.removeNode.injEq] at hcu
          subst hcu
          have := hfo ⟨due, Callback.fadeOut m⟩ htm rfl
          simp only at this
          simp only
          omega
      · by_cases hmn : m = n
        · subst hmn
          refine ⟨⟨due + 400, Callback.removeNode m⟩, ?_, Or.inr rfl⟩
          simp [runCallback]
        · refine ⟨t0, ?_, hc0⟩
          simp only [runCallback, List.mem_append, List.mem_singleton]
          exact Or.inl ((List.mem_erase_of_ne (hne hmn)).mpr ht0)
    | removeNode m =>
      by_cases hmn : m = n
      · subst hmn
        have hdue := hrm ⟨due, Callback.removeNode m⟩ htm rfl
        simp only at hdue
        simp [runCallback, attached, any_id_filter_ne, hdue]
      · have hne : t0 ≠ ⟨due, Callback.removeNode m⟩ := by
          rintro rfl
          rcases hc0 with h | h
          · cases h
          · simp only [Callback.removeNode.injEq] at h
            exact hmn h
        have hwt : timerWeight ⟨due, Callback.removeNode m⟩ = 1 := rfl
        have hatt1 : attached (runCallback ⟨due, nextId, body,
            timers.erase ⟨due, Callback.removeNode m⟩⟩ (Callback.removeNode m)) n = true := by
          simp only [runCallback, attached, any_id_filter_other body n m hmn]
          exact hatt
        simp only [hatt1, if_true]
        apply ih
        · simp only [runCallback]
          omega
        · exact hatt1
        · intro u hu
          exact hfo u (List.mem_of_mem_erase hu)
        · intro u hu
          exact hrm u (List.mem_of_mem_erase hu)
        · exact ⟨t0, (List.mem_erase_of_ne hne).mpr ht0, hc0⟩

/-- Claim C10, amended: a toast created by `showToast` at time `t`, on a page whose
pending timers (if any, such as those of other toasts) do not touch the new
node, with every timer firing exactly when it is due, leaves the document
exactly 3900 ms after its creation (fade-out timer at 3500 ms, removal 400 ms
after it), given fuel for the pending timer firings. -/
theorem toast_removed_after_3900 (doc : Document) (msg type : String) (fuel : Nat)
    (h : ∀ t ∈ doc.timers, t.callback.node ≠ doc.nextId) :
    removalTime (pendingWork (showToast doc msg type).timers + fuel)
      (showToast doc msg type) doc.nextId = some (doc.now + 3900) := by
  apply removalTime_of_pending doc.nextId doc.now
  · omega
  · simp [attached, showToast]
  · intro t ht hc
    simp only [showToast, List.mem_append, List.mem_cons, List.mem_singleton,
      List.not_mem_nil, or_false] at ht
    rcases ht with ht | rfl | rfl
    · exact absurd (by rw [hc]; rfl) (h t ht)
    · cases hc
    · rfl
  · intro t ht hc
    simp only [showToast, List.mem_append, List.mem_cons, List.mem_singleton,
      List.not_mem_nil, or_false] at ht
    rcases ht with ht | rfl | rfl
    · exact absurd (by rw [hc]; rfl) (h t ht)
    · cases hc
    · cases hc
  · exact ⟨⟨doc.now + 3500, Callback.fadeOut doc.nextId⟩, by simp [showToast], Or.inl rfl⟩

theorem toast_removed_after_3900_witness :
    (∀ t ∈ (showToast ⟨1000, 7, [], []⟩ "First" "error").timers,
      t.callback.node ≠ (showToast ⟨1000, 7, [], []⟩ "First" "error").nextId) ∧
    removalTime
      (pendingWork (showToast (showToast ⟨1000, 7, [], []⟩ "First" "error")
        "Second" "success").timers + 0)
      (showToast (showToast ⟨1000, 7, [], []⟩ "First" "error") "Second" "success") 8 =
        some (1000 + 3900) :=
  ⟨by decide,
    toast_removed_after_3900 (showToast ⟨1000, 7, [], []⟩ "First" "error") "Second" "success" 0
      (by decide)⟩

/-- Claim C10 as stated fails: a toast created at time 0 on an idle page is removed at
time 3900, which is not within 4000±50 ms of its creation. -/
theorem toast_removal_outside_window :
    removalTime 3 (showToast ⟨0, 0, [], []⟩ "Saved" "success") 0 = some 3900 ∧
    ¬ (3950 ≤ 3900 - 0 ∧ 3900 - 0 ≤ 4050) :=
  ⟨by decide, by decide⟩

/-! ## Testimonial slider -/

/-- The tween that the `j`-th tick of a slider with `N` slides of width `w` requests. -/
theorem ticks_state (N : Nat) (w : Int) (k : Nat) :
    animateSlides^[k] (Slider.start N w) =
      { slidesLength := N, slideWidth := w, currentSlide := k % N
        requested := (List.range k).map fun j =>
          { x := -(((j + 1) % N : Nat) : Int) * w, durationMs := 1200, ease := "power3.inOut" } } := by
  induction k with
  | zero => simp [Slider.start]
  | succ k ih =>
    rw [Function.iterate_succ_apply', ih]
    simp [animateSlides, List.range_succ, Nat.mod_add_mod]

/-- Claim C5: with `N >= 1` slides of measured width `w`, after `k` calls of `animateSlides`
the index `currentSlide` is `k mod N` and lies in `0..N-1`, and the offset that
the `j`-th tick requested (for every `1 <= j <= k`, in particular `j = k`) is
`-(j mod N) * w`. -/
theorem slider_index_after_ticks (N : Nat) (w : Int) (k : Nat) (hN : 1 ≤ N) :
    (animateSlides^[k] (Slider.start N w)).currentSlide = k % N ∧
    (animateSlides^[k] (Slider.start N w)).currentSlide < N ∧
    ∀ j, 1 ≤ j → j ≤ k →
      ((animateSlides^[k] (Slider.start N w)).requested[j - 1]?).map SlideTween.x =
        some (-((j % N : Nat) : Int) * w) := by
  rw [ticks_state]
  refine ⟨rfl, Nat.mod_lt k (by omega), ?_⟩
  intro j h1 hk
  obtain ⟨i, rfl⟩ : ∃ i, j = i + 1 := ⟨j - 1, by omega⟩
  have hi : i < k := by omega
  simp only [Nat.add_sub_cancel, List.getElem?_map, List.getElem?_range hi, Option.map_some']

theorem slider_index_after_ticks_witness :
    1 ≤ 3 ∧ (animateSlides^[7] (Slider.start 3 320)).currentSlide = 7 % 3 ∧
    ((animateSlides^[7] (Slider.start 3 320)).requested[7 - 1]?).map SlideTween.x =
      some (-((7 % 3 : Nat) : Int) * 320) :=
  ⟨by decide, (slider_index_after_ticks 3 320 7 (by decide)).1,
    (slider_index_after_ticks 3 320 7 (by decide)).2.2 7 (by decide) (by decide)⟩

/-- The invariant of the testimonial timers: handles are positive, and the active
interval timers created by `setupTestimonials` are exactly the one whose
handle the variable `testimonialInterval` holds, if any. -/
theorem slider_invariant (wrapper : Bool) (N : Nat) (w0 : Int) (evs : List SliderEvent) :
    1 ≤ (sliderRun wrapper N w0 evs).nextHandle ∧
    (∀ h, (sliderRun wrapper N w0 evs).testimonialInterval = some h → h ≠ 0) ∧
    (sliderRun wrapper N w0 evs).intervals.map Prod.fst =
      (sliderRun wrapper N w0 evs).testimonialInterval.toList := by
  have hsetup : ∀ (w : Int) (st : TestimonialState),
      (1 ≤ st.nextHandle ∧ (∀ h, st.testimonialInterval = some h → h ≠ 0) ∧
        st.intervals.map Prod.fst = st.testimonialInterval.toList) →
      (1 ≤ (setupTestimonials wrapper N w st).nextHandle ∧
        (∀ h, (setupTestimonials wrapper N w st).testimonialInterval = some h → h ≠ 0) ∧
        (setupTestimonials wrapper N w st).intervals.map Prod.fst =
          (setupTestimonials wrapper N w st).testimonialInterval.toList) := by
    intro w st ⟨h1, h2, h3⟩
    unfold setupTestimonials
    by_cases hg : (!wrapper || N == 0) = true
    · rw [if_pos hg]
      exact ⟨h1, h2, h3⟩
    · rw [if_neg hg]
      obtain ⟨ti, nh, ivs⟩ := st
      simp only at h1 h2 h3
      cases ti with
      | none =>
        simp only [Option.toList, List.map_eq_nil_iff] at h3
        subst h3
        refine ⟨by simp, ?_, by simp [Option.toList]⟩
        intro h hh
        simp only [Option.some.injEq] at hh
        omega
      | some t =>
        have ht : t ≠ 0 := h2 t rfl
        have hiv : ivs.filter (fun e => e.1 != t) = [] := by
          rw [List.filter_eq_nil_iff]
          intro e he
          have : e.1 ∈ ivs.map Prod.fst := List.mem_map_of_mem Prod.fst he
          rw [h3] at this
          simp only [Option.toList, List.mem_singleton] at this
          simp [this]
        refine ⟨by simp [ht, clearInterval], ?_, ?_⟩
        · intro h hh
          simp only [ht, clearInterval, bne_iff_ne, ne_eq, not_false_eq_true, if_true,
            Option.some.injEq] at hh
          omega
        · simp [ht, clearInterval, hiv, Option.toList]
  unfold sliderRun
  induction evs using List.reverseRecOn with
  | nil =>
    simp only [List.foldl_nil]
    exact hsetup w0 TestimonialState.init ⟨by decide, by simp [TestimonialState.init],
      by simp [TestimonialState.init, Option.toList]⟩
  | append_singleton evs ev ih =>
    rw [List.foldl_append]
    simp only [List.foldl_cons, List.foldl_nil]
    cases ev with
    | setup w => exact hsetup w _ ih
    | tick =>
      obtain ⟨h1, h2, h3⟩ := ih
      refine ⟨h1, h2, ?_⟩
      simp only [sliderStep, List.map_map]
      rw [← h3]
      rfl
    | otherTimer =>
      obtain ⟨h1, h2, h3⟩ := ih
      exact ⟨by simp only [sliderStep]; omega, h2, h3⟩

/-- Claim C7: after the call of `setupTestimonials` at load and any sequence of later
calls (with timer ticks and other timers of the page in between), at most one
interval timer created by `setupTestimonials` is active, and it is the one
created last, whose handle `testimonialInterval` holds: every call that creates
a timer has cleared the previous one. -/
theorem at_most_one_testimonial_timer (wrapper : Bool) (N : Nat) (w0 : Int)
    (evs : List SliderEvent) :
    (sliderRun wrapper N w0 evs).intervals.length ≤ 1 ∧
    (sliderRun wrapper N w0 evs).intervals.map Prod.fst =
      (sliderRun wrapper N w0 evs).testimonialInterval.toList := by
  have h := (slider_invariant wrapper N w0 evs).2.2
  refine ⟨?_, h⟩
  have hl := congrArg List.length h
  rw [List.length_map] at hl
  rw [hl]
  cases (sliderRun wrapper N w0 evs).testimonialInterval <;> simp [Option.toList]

/-! ## Nav-glass controller -/

theorem mem_classAdd (classes : List String) (token : String) :
    token ∈ classAdd classes token := by
  unfold classAdd
  by_cases h : classes.contains token = true
  · rw [if_pos h]
    simpa using h
  · rw [if_neg h]
    simp

/-- One call of `setupNavGlass` on a page that has a nav element, from a state in which
the live watchers are exactly the one held in `navTrigger`: it returns
normally, and re-establishes that property together with the behaviour that
belongs to the viewport width. -/
theorem setupNavGlass_step (w : Nat) (st : NavState) (classes : List String)
    (hnav : st.nav = some classes) (hlive : st.live = st.navTrigger.toList) :
    ∃ st1 classes1, setupNavGlass w st = Except.ok st1 ∧ st1.nav = some classes1 ∧
      st1.live = st1.navTrigger.toList ∧
      (if isDesktop w then st1.navTrigger = some st.nextTrigger ∧ st1.live = [st.nextTrigger]
       else "glass-effect" ∈ classes1 ∧ st1.navTrigger = none ∧ st1.live = []) := by
  obtain ⟨nav, trig, next, live⟩ := st
  simp only at hnav hlive
  subst hnav
  have hkill : (match trig with
      | some t => live.filter fun u => u != t
      | none => live) = [] := by
    subst hlive
    cases trig with
    | none => rfl
    | some t => simp [Option.toList]
  unfold setupNavGlass
  simp only [hkill]
  by_cases hd : isDesktop w = true
  · simp [hd, Option.toList]
  · simp [hd, Option.toList, mem_classAdd]

theorem navRun_append (st : NavState) (evs : List NavEvent) (ev : NavEvent) :
    navRun st (evs ++ [ev]) =
      match navRun st evs with
      | Except.error e => Except.error e
      | Except.ok st1 => navStep st1 ev := by
  induction evs generalizing st with
  | nil =>
    simp only [List.nil_append, navRun]
    cases navStep st ev <;> rfl
  | cons v vs ih =>
    simp only [List.cons_append, navRun]
    cases navStep st v with
    | error e => rfl
    | ok st1 => exact ih st1

theorem navRun_invariant (classes : List String) (evs : List NavEvent) :
    ∃ st cl, navRun (NavState.init (some classes)) evs = Except.ok st ∧ st.nav = some cl ∧
      st.live = st.navTrigger.toList := by
  induction evs using List.reverseRecOn with
  | nil => exact ⟨_, classes, rfl, rfl, rfl⟩
  | append_singleton evs ev ih =>
    obtain ⟨st, cl, hrun, hnav, hlive⟩ := ih
    rw [navRun_append, hrun]
    cases ev with
    | setup w =>
      obtain ⟨st1, cl1, hstep, hnav1, hlive1, _⟩ := setupNavGlass_step w st cl hnav hlive
      exact ⟨st1, cl1, hstep, hnav1, hlive1⟩
    | enter =>
      by_cases he : st.live.isEmpty = true
      · exact ⟨st, cl, by simp [navStep, he], hnav, hlive⟩
      · exact ⟨{ st with nav := some (classAdd cl "glass-effect") }, classAdd cl "glass-effect",
          by simp [navStep, he, hnav], rfl, hlive⟩
    | leaveBack =>
      by_cases he : st.live.isEmpty = true
      · exact ⟨st, cl, by simp [navStep, he], hnav, hlive⟩
      · exact ⟨{ st with nav := some (classRemove cl "glass-effect") }, classRemove cl "glass-effect",
          by simp [navStep, he, hnav], rfl, hlive⟩

/-- Claim C6: on a page with a nav element, after every call of `setupNavGlass` in any
sequence of calls at arbitrary viewport widths (here the call at width `w`,
after any earlier calls and scroll callbacks `evs`), the call has returned
normally and exactly one nav behaviour is active: at `w >= 768` exactly one nav
watcher is live and it is the one held in `navTrigger`; at `w < 768` the class
'glass-effect' is on the nav, `navTrigger` is null and no nav watcher is live.
There are never two live nav watchers. -/
theorem nav_exactly_one_behaviour (classes : List String) (evs : List NavEvent) (w : Nat) :
    ∃ st cl, navRun (NavState.init (some classes)) (evs ++ [NavEvent.setup w]) = Except.ok st ∧
      st.nav = some cl ∧ st.live.length ≤ 1 ∧
      (if 768 ≤ w then ∃ t, st.navTrigger = some t ∧ st.live = [t]
       else "glass-effect" ∈ cl ∧ st.navTrigger = none ∧ st.live = []) := by
  obtain ⟨st0, cl0, hrun, hnav, hlive⟩ := navRun_invariant classes evs
  obtain ⟨st1, cl1, hstep, hnav1, hlive1, hbeh⟩ := setupNavGlass_step w st0 cl0 hnav hlive
  refine ⟨st1, cl1, ?_, hnav1, ?_, ?_⟩
  · rw [navRun_append, hrun]
    exact hstep
  · rw [hlive1]
    cases st1.navTrigger <;> simp [Option.toList]
  · by_cases hw : 768 ≤ w
    · have hd : isDesktop w = true := by simp [isDesktop, hw]
      rw [if_pos hd] at hbeh
      rw [if_pos hw]
      exact ⟨st0.nextTrigger, hbeh.1, hbeh.2⟩
    · have hd : ¬ isDesktop w = true := by simp [isDesktop, hw]
      rw [if_neg hd] at hbeh
      rw [if_neg hw]
      exact hbeh

/-- Between calls, too, at most one nav watcher is live, and it is the one held
in `navTrigger`: after any sequence of calls and scroll callbacks. -/
theorem nav_never_two_watchers (classes : List String) (evs : List NavEvent) :
    ∃ st, navRun (NavState.init (some classes)) evs = Except.ok st ∧
      st.live = st.navTrigger.toList ∧ st.live.length ≤ 1 := by
  obtain ⟨st, _, hrun, _, hlive⟩ := navRun_invariant classes evs
  refine ⟨st, hrun, hlive, ?_⟩
  rw [hlive]
  cases st.navTrigger <;> simp [Option.toList]

/-! ## Horizontal project scroller -/

/-- The values that the projects tween returns at a refresh are those of the layout
at setup, whatever the layout at the refresh. -/
theorem setupProjects_ignores_live_layout (atSetup live : Layout) :
    (setupProjects atSetup).x live = specX atSetup ∧
    (setupProjects atSetup).scrollEnd live = specScrollEnd atSetup :=
  ⟨rfl, rfl⟩

/-- Claim C8 fails on the code: set up with an overflow of 1000 px and refreshed when
the overflow has become 2000 px, the tween's `x()` still returns "-1000px" and
the trigger's `end()` still returns "+=1000", where the live overflow gives
"-2000px" and "+=2000". -/
theorem projects_tween_stale_after_refresh :
    (setupProjects ⟨2000, 1000⟩).x ⟨3000, 1000⟩ = "-1000px" ∧
    specX ⟨3000, 1000⟩ = "-2000px" ∧
    (setupProjects ⟨2000, 1000⟩).scrollEnd ⟨3000, 1000⟩ = "+=1000" ∧
    specScrollEnd ⟨3000, 1000⟩ = "+=2000" :=
  ⟨by decide, by decide, by decide, by decide⟩

/-! ## The `DOMContentLoaded` handler -/

/-- With a nav element on the page the handler runs to completion, whatever else is
missing. -/
theorem domContentLoaded_ok_of_nav (page : Page) (h : page.count ".nav" ≠ 0) :
    ∃ setup, domContentLoaded page = Except.ok setup := by
  have hhas : page.has ".nav" = true := by simp [Page.has, h]
  obtain ⟨st1, cl1, hstep, _⟩ :=
    setupNavGlass_step page.innerWidth (NavState.init (some page.navClasses))
      page.navClasses rfl rfl
  unfold domContentLoaded
  simp only [hhas, if_true, hstep]
  exact ⟨_, rfl⟩

/-- Claim C9 fails on the code: on a page where `.nav` matches no element, the first
call of `setupNavGlass` throws a `TypeError` (it reads `nav.classList` of
`null`), and the `DOMContentLoaded` handler ends with that exception instead
of running to completion. -/
theorem domContentLoaded_throws_without_nav (page : Page) (h : page.count ".nav" = 0) :
    domContentLoaded page = Except.error (JSError.typeError "nav is null") := by
  have hhas : page.has ".nav" = false := by simp [Page.has, h]
  unfold domContentLoaded
  simp only [hhas]
  rfl

theorem domContentLoaded_throws_without_nav_witness :
    (⟨1280, fun sel => if sel = ".nav" then 0 else 1, [], ⟨2000, 1000⟩, 320⟩ : Page).count
      ".nav" = 0 ∧
    domContentLoaded ⟨1280, fun sel => if sel = ".nav" then 0 else 1, [], ⟨2000, 1000⟩, 320⟩ =
      Except.error (JSError.typeError "nav is null") :=
  ⟨by decide, domContentLoaded_throws_without_nav
    ⟨1280, fun sel => if sel = ".nav" then 0 else 1, [], ⟨2000, 1000⟩, 320⟩ (by decide)⟩

end Portfolio
